import Mathlib

/-!
Verification development for the gorun Run Execution Engine and Tool
Specification Cache (shallow embedding of the Go sources).

Conventions of the embedding:
* Go errors are `String`s (the error text); fallible calls return `Except`.
* External container-runtime outcomes (creation/start/wait/log errors,
  collected stdout/stderr) are supplied by environment records; each
  definition below consumes them in exactly the order the Go code performs
  the corresponding calls.
* `log.Fatal` (which terminates the whole process via `os.Exit`, skipping
  deferred functions) is modelled by a distinguished outcome that carries
  the trace accumulated so far, with no deferred cleanup events appended.
* Container and database side effects are recorded in an event trace.
-/

namespace GoRun

/-- Run lifecycle status, from the `runs` table / §3 of the design. -/
inductive RunStatus
  | pending
  | running
  | finished
  | errored
  deriving DecidableEq, Repr

/-- The persisted fields of one row of the `runs` table that the engine's
state transitions touch (timestamps are modelled as "has been stamped"
booleans; `error_message` and `gotap_metadata` are nullable strings). -/
structure RunRecord where
  status : RunStatus
  startedAt : Bool
  finishedAt : Bool
  errorMessage : Option String
  hasErrored : Bool
  gotapMetadata : Option String
  deriving DecidableEq, Repr

/-- Query `-- name: StartRun :one` (sql/queries/runs.sql):
`UPDATE runs SET status = 'running', started_at = datetime('now') ...`. -/
def StartRun (r : RunRecord) : RunRecord :=
  { r with status := .running, startedAt := true }

/-- Query `-- name: FinishRun :one`:
`UPDATE runs SET status = 'finished', finished_at = datetime('now') ...`. -/
def FinishRun (r : RunRecord) : RunRecord :=
  { r with status := .finished, finishedAt := true }

/-- Query `-- name: RunErrored :one`:
`UPDATE runs SET status = 'errored', error_message = ?, finished_at =
datetime('now'), has_errored = TRUE ...`. -/
def RunErrored (msg : String) (r : RunRecord) : RunRecord :=
  { r with status := .errored, errorMessage := some msg,
           finishedAt := true, hasErrored := true }

/-- Query `-- name: SetRunGotapMetadata :one`:
`UPDATE runs SET gotap_metadata = ? WHERE runs.id = ?`. -/
def SetRunGotapMetadata (m : String) (r : RunRecord) : RunRecord :=
  { r with gotapMetadata := some m }

/-- Go `strings.TrimSpace` on the leading side (drop whitespace). -/
def goTrimL : List Char → List Char
  | [] => []
  | c :: cs => if c.isWhitespace then goTrimL cs else c :: cs

/-- Go `strings.TrimSpace` (Go trims Unicode whitespace; the embedding trims
the ASCII whitespace characters, which is what the probed outputs use). -/
def goTrim (s : String) : String :=
  ⟨(goTrimL (goTrimL s.data.reverse).reverse)⟩

/-- Go `strings.ToLower`, character-wise (ASCII-faithful). -/
def goLower (s : String) : String :=
  ⟨s.data.map Char.toLower⟩

/-- Helper for `strings.Contains`: does `l` start with `p`? -/
def goHasPrefixL : List Char → List Char → Bool
  | _, [] => true
  | [], _ :: _ => false
  | a :: as, b :: bs => a = b && goHasPrefixL as bs

/-- Helper for `strings.Contains`: does `sub` occur inside `l`? -/
def goContainsL : List Char → List Char → Bool
  | [], sub => goHasPrefixL [] sub
  | a :: as, sub => goHasPrefixL (a :: as) sub || goContainsL as sub

/-- Go `strings.Contains(s, sub)` (byte substring search; the embedding works
character-wise, which agrees on ASCII). -/
def goContains (s sub : String) : Bool :=
  goContainsL s.data sub.data

theorem goHasPrefixL_iff (p l : List Char) :
    goHasPrefixL l p = true ↔ ∃ t, l = p ++ t := by
  induction p generalizing l with
  | nil => simp [goHasPrefixL]
  | cons b bs ih =>
    cases l with
    | nil => simp [goHasPrefixL]
    | cons a as =>
      simp only [goHasPrefixL, Bool.and_eq_true, decide_eq_true_eq, ih,
        List.cons_append, List.cons.injEq]
      constructor
      · rintro ⟨rfl, t, rfl⟩; exact ⟨t, rfl, rfl⟩
      · rintro ⟨t, rfl, rfl⟩; exact ⟨rfl, t, rfl⟩

theorem goContainsL_iff (l sub : List Char) :
    goContainsL l sub = true ↔ ∃ pre post, l = pre ++ sub ++ post := by
  induction l with
  | nil =>
    simp only [goContainsL, goHasPrefixL_iff]
    constructor
    · rintro ⟨t, ht⟩; exact ⟨[], t, by simpa using ht⟩
    · rintro ⟨pre, post, h⟩
      rcases List.append_eq_nil.mp (List.append_eq_nil.mp h.symm).1 with ⟨h1, h2⟩
      exact ⟨[], by simp [h2]⟩
  | cons a as ih =>
    simp only [goContainsL, Bool.or_eq_true, goHasPrefixL_iff, ih]
    constructor
    · rintro (⟨t, ht⟩ | ⟨pre, post, h⟩)
      · exact ⟨[], t, by simpa using ht⟩
      · exact ⟨a :: pre, post, by simp [h]⟩
    · rintro ⟨pre, post, h⟩
      cases pre with
      | nil => exact Or.inl ⟨post, by simpa using h⟩
      | cons p ps =>
        simp only [List.cons_append, List.cons.injEq] at h
        exact Or.inr ⟨ps, post, h.2⟩

/-- Go `strings.Contains` agrees with the mathematical substring relation. -/
theorem goContains_iff (s sub : String) :
    goContains s sub = true ↔ ∃ pre post, s.data = pre ++ sub.data ++ post :=
  goContainsL_iff s.data sub.data

/-! ## Container runtime layer (`toolImage.runContainerCommand`) -/

/-- Events recorded while the engine / a probe interacts with the container
runtime and the persistence layer. -/
inductive Ev
  | create (entrypoint cmd : List String)
  | remove
  | logsOpen
  | logsClose
  | dbStartRun
  | dbFinishRun
  | dbRunErrored (msg : String)
  | dbSetMetadata (m : String)
  deriving DecidableEq, Repr

def isCreateEv : Ev → Bool
  | .create _ _ => true
  | _ => false

def isRemoveEv : Ev → Bool
  | .remove => true
  | _ => false

def isLogsOpenEv : Ev → Bool
  | .logsOpen => true
  | _ => false

def isLogsCloseEv : Ev → Bool
  | .logsClose => true
  | _ => false

def isDbStartRunEv : Ev → Bool
  | .dbStartRun => true
  | _ => false

/-- Every created container has a matching remove and every opened log
reader a matching close, in one event trace. -/
def balancedTrace (tr : List Ev) : Prop :=
  tr.countP isCreateEv = tr.countP isRemoveEv ∧
  tr.countP isLogsOpenEv = tr.countP isLogsCloseEv

/-- Outcome of `c.ContainerWait(...)`'s `select` over `statusCh, errCh`:
either the error channel fires (possibly with a nil error, which the Go
code falls through on) or the status channel fires with an optional
in-band error message and the exit code. -/
inductive WaitOutcome
  | errChan (e : Option String)
  | statusChan (errMsg : Option String) (exitCode : Int)
  deriving DecidableEq, Repr

/-- One container interaction's externally determined outcomes: the errors
(if any) of `ContainerCreate`, `ContainerStart`, `ContainerLogs`,
`stdcopy.StdCopy`, the `ContainerWait` outcome, and the demultiplexed
stdout/stderr contents. -/
structure ContainerEnv where
  createErr : Option String
  startErr : Option String
  wait : WaitOutcome
  logsErr : Option String
  stdCopyErr : Option String
  stdout : String
  stderr : String
  deriving DecidableEq, Repr

/-- The `select`-block of `runContainerCommand` (and of `RunTool`): error
channel errors return as-is; a status-channel in-band error becomes
`container wait error: <msg>` inside `runContainerCommand` (the caller
formats it); otherwise the exit code is produced.  A nil error-channel
value leaves the exit code at its zero value, exactly as the Go code
falls out of the `select` without assigning `exitCode`. -/
def waitStep (w : WaitOutcome) : Except String Int :=
  match w with
  | .errChan (some e) => .error e
  | .errChan none => .ok 0
  | .statusChan (some m) _ => .error ("container wait error: " ++ m)
  | .statusChan none code => .ok code

/-- Function `toolImage.runContainerCommand`: create a throwaway container with the
given entrypoint/cmd, start it, wait, read and demultiplex its logs, and
return `(stdout, stderr, exitCode)`.  The container remove is deferred
(runs on every return after a successful create); the log reader close is
deferred after it opens. -/
def runContainerCommand (env : ContainerEnv) (entrypoint cmd : List String) :
    Except String (String × String × Int) × List Ev :=
  match env.createErr with
  | some e => (.error e, [])
  | none =>
    match env.startErr with
    | some e => (.error e, [.create entrypoint cmd, .remove])
    | none =>
      match waitStep env.wait with
      | .error e => (.error e, [.create entrypoint cmd, .remove])
      | .ok exitCode =>
        match env.logsErr with
        | some e => (.error e, [.create entrypoint cmd, .remove])
        | none =>
          match env.stdCopyErr with
          | some e =>
            (.error e, [.create entrypoint cmd, .logsOpen, .logsClose, .remove])
          | none =>
            (.ok (env.stdout, env.stderr, exitCode),
             [.create entrypoint cmd, .logsOpen, .logsClose, .remove])

/-- Function `toolImage.ProbeGotap`: run `command -v gotap || which gotap` under
`sh -lc` in a throwaway container; a command error propagates, a non-zero
exit or empty trimmed stdout means "no shim", otherwise the trimmed stdout
is the shim path. -/
def ProbeGotap (env : ContainerEnv) : Except String (Option String) × List Ev :=
  match runContainerCommand env ["sh", "-lc"] ["command -v gotap || which gotap"] with
  | (.error e, tr) => (.error e, tr)
  | (.ok (stdout, _, exitCode), tr) =>
    if exitCode ≠ 0 then (.ok none, tr)
    else if goTrim stdout = "" then (.ok none, tr)
    else (.ok (some (goTrim stdout)), tr)

theorem runContainerCommand_balanced (env : ContainerEnv)
    (entrypoint cmd : List String) :
    balancedTrace (runContainerCommand env entrypoint cmd).2 := by
  unfold runContainerCommand balancedTrace
  rcases env with ⟨ce, se, w, le, sce, so, sr⟩
  rcases ce with _ | e₁ <;> rcases se with _ | e₂ <;>
    rcases w with e₃ | ⟨m, c⟩ <;>
    first
      | (rcases e₃ with _ | e₃ <;> rcases le with _ | e₄ <;>
          rcases sce with _ | e₅ <;>
          simp [waitStep, List.countP_cons, isCreateEv, isRemoveEv,
            isLogsOpenEv, isLogsCloseEv])
      | (rcases m with _ | m <;> rcases le with _ | e₄ <;>
          rcases sce with _ | e₅ <;>
          simp [waitStep, List.countP_cons, isCreateEv, isRemoveEv,
            isLogsOpenEv, isLogsCloseEv])

theorem ProbeGotap_balanced (env : ContainerEnv) :
    balancedTrace (ProbeGotap env).2 := by
  unfold ProbeGotap
  have h := runContainerCommand_balanced env ["sh", "-lc"]
    ["command -v gotap || which gotap"]
  rcases hrc : runContainerCommand env ["sh", "-lc"]
      ["command -v gotap || which gotap"] with ⟨res, tr⟩
  rw [hrc] at h
  rcases res with e | ⟨so, sr, code⟩
  · simpa using h
  · by_cases h0 : code = 0 <;> by_cases ht : goTrim so = "" <;>
      simp [h0, ht] <;> exact h

/-! ## Tool specification probing (`toolImage.readToolSpec`) -/

/-- One tool's specification entry (`toolspec.ToolSpec` of the external
tool-spec-go library, restricted to the fields the embedded code touches:
`ID`, `Name`, `Title`, `Citation`). -/
structure ToolSpecRec where
  id : String
  name : String
  title : String
  citation : Option String
  deriving DecidableEq, Repr

/-- An image's specification file (`toolspec.SpecFile`): the declared
tools, keyed by name.  Go's map is embedded as an association list. -/
structure SpecFile where
  tools : List (String × ToolSpecRec)
  deriving DecidableEq, Repr

/-- External outcomes consumed by one `readToolSpec` invocation: one
container interaction for the shim probe, one for each of the three shim
sub-invocations, one for the `cat /src/tool.yml` fallback, and the
behaviour of the external parser `toolspec.LoadToolSpec` on any stdout. -/
structure ReadSpecEnv where
  probe : ContainerEnv
  metadataCmd : ContainerEnv
  parseSpecFileCmd : ContainerEnv
  parsePathCmd : ContainerEnv
  catCmd : ContainerEnv
  parse : String → Except String SpecFile

/-- The shim-command loop of `readToolSpec`: try each `(containerEnv,
args)` pair in order with entrypoint `[gotapPath]`; skip it when the
container command errors, exits non-zero or produces only whitespace, or
when the output does not parse; accept the first parsed spec. -/
def tryShimCommands (gotapPath : String) (parse : String → Except String SpecFile) :
    List (ContainerEnv × List String) → Option SpecFile × List Ev
  | [] => (none, [])
  | (cenv, args) :: rest =>
    match runContainerCommand cenv [gotapPath] args with
    | (.error _, tr) =>
      match tryShimCommands gotapPath parse rest with
      | (r, tr2) => (r, tr ++ tr2)
    | (.ok (stdout, _, exitCode), tr) =>
      if exitCode ≠ 0 ∨ goTrim stdout = "" then
        match tryShimCommands gotapPath parse rest with
        | (r, tr2) => (r, tr ++ tr2)
      else
        match parse stdout with
        | .ok spec => (some spec, tr)
        | .error _ =>
          match tryShimCommands gotapPath parse rest with
          | (r, tr2) => (r, tr ++ tr2)

/-- The three shim sub-invocations `readToolSpec` tries, in order. -/
def shimCommands (env : ReadSpecEnv) : List (ContainerEnv × List String) :=
  [(env.metadataCmd, ["metadata", "--spec-file", "/src/tool.yml"]),
   (env.parseSpecFileCmd, ["parse", "--spec-file", "/src/tool.yml"]),
   (env.parsePathCmd, ["parse", "/src/tool.yml"])]

/-- The fallback block of `readToolSpec` (source lines 467-483): `cat
/src/tool.yml` in a throwaway container, where a container error
propagates, a non-zero exit yields "the container errored while
identifying the tool spec: <stderr>", an empty output yields "the
container did not respond", and an unparseable output yields the "did
not contain a valid tool-spec" error. -/
def catFallback (env : ReadSpecEnv) (imageName : String) :
    Except String SpecFile × List Ev :=
  match runContainerCommand env.catCmd ["cat"] ["/src/tool.yml"] with
  | (.error e, tr2) => (.error e, tr2)
  | (.ok (stdout, stderr, exitCode), tr2) =>
    if exitCode ≠ 0 then
      (.error ("the container errored while identifying the tool spec: "
         ++ goTrim stderr), tr2)
    else if goTrim stdout = "" then
      (.error "the container did not respond", tr2)
    else
      match env.parse stdout with
      | .ok spec => (.ok spec, tr2)
      | .error perr =>
        (.error ("the container " ++ imageName
           ++ " did not contain a valid tool-spec at /src/tool.yml: " ++ perr),
         tr2)

/-- Function `toolImage.readToolSpec`: probe for the gotap shim (a probe error
propagates); if found, try `metadata --spec-file /src/tool.yml`,
`parse --spec-file /src/tool.yml`, `parse /src/tool.yml` in order; if no
shim or none succeeded, run the `cat /src/tool.yml` fallback. -/
def readToolSpec (env : ReadSpecEnv) (imageName : String) :
    Except String SpecFile × List Ev :=
  match ProbeGotap env.probe with
  | (.error e, tr) => (.error e, tr)
  | (.ok gotapOpt, tr0) =>
    let shimStep : Option SpecFile × List Ev :=
      match gotapOpt with
      | none => (none, [])
      | some gotapPath =>
        tryShimCommands gotapPath env.parse (shimCommands env)
    match shimStep with
    | (some spec, tr1) => (.ok spec, tr0 ++ tr1)
    | (none, tr1) =>
      match catFallback env imageName with
      | (res, tr2) => (res, tr0 ++ tr1 ++ tr2)

/-- External outcomes consumed by `readToolCitation`: the container
interaction for `cat /src/CITATION.cff` and the external `cff.Parse`
behaviour (a parsed citation is embedded as an opaque string). -/
structure CitationEnv where
  cont : ContainerEnv
  parseCff : String → Except String String

/-- Function `toolImage.readToolCitation`: `cat /src/CITATION.cff` in a throwaway
container; note the Go code returns whatever the error channel delivers
(even nil), ignores the `stdcopy` error, fails on non-empty stderr or
empty stdout, and otherwise parses the citation file. -/
def readToolCitation (env : CitationEnv) (imageName : String) :
    Except String String × List Ev :=
  match env.cont.createErr with
  | some e => (.error e, [])
  | none =>
    match env.cont.startErr with
    | some e => (.error e, [.create ["cat"] ["/src/CITATION.cff"], .remove])
    | none =>
      match env.cont.wait with
      | .errChan (some e) =>
        (.error e, [.create ["cat"] ["/src/CITATION.cff"], .remove])
      | .errChan none =>
        -- `case err := <-errCh: return cff.Cff{}, err` returns even a nil
        -- error: the caller then sees success with the zero-value citation.
        (.ok "", [.create ["cat"] ["/src/CITATION.cff"], .remove])
      | .statusChan _ _ =>
        match env.cont.logsErr with
        | some e => (.error e, [.create ["cat"] ["/src/CITATION.cff"], .remove])
        | none =>
          let tr := [Ev.create ["cat"] ["/src/CITATION.cff"],
                     .logsOpen, .logsClose, .remove]
          if env.cont.stderr ≠ "" then
            (.error ("Error while reading CITATION.cff: " ++ env.cont.stderr), tr)
          else if env.cont.stdout = "" then
            (.error ("No CITATION.cff found in the container " ++ imageName), tr)
          else
            match env.parseCff env.cont.stdout with
            | .ok c => (.ok c, tr)
            | .error e => (.error ("Error while parsing CITATION.cff: " ++ e), tr)

/-! ## The Run Execution Engine (`tool.RunTool`) -/

/-- The fields of `tool.Tool` that `RunTool` reads: run id, tool name,
image reference and the mount map (container path → host path), embedded
as an association list (container paths are unique map keys). -/
structure ToolInfo where
  id : Int
  name : String
  image : String
  mounts : List (String × String)
  deriving DecidableEq, Repr

/-- Struct `tool.RunToolOptions` (the `DB` and `Env` fields are carried by the
environment resp. unused by the embedded control flow). -/
structure RunToolOptions where
  tool : ToolInfo
  cmd : List String
  userId : String
  deriving DecidableEq, Repr

/-- Whether each persistence operation invoked through `updateDB` /
`SetRunGotapMetadata` fails when reached. -/
structure DbFlags where
  startRunFails : Bool
  finishRunFails : Bool
  runErroredFails : Bool
  setMetadataFails : Bool
  deriving DecidableEq, Repr

/-- Outcome of `os.ReadFile` on `<outDir>/_metadata.json`: the file is
absent (`os.IsNotExist`), unreadable for another reason, or present with
some content whose `json.Valid` verdict is recorded. -/
inductive MetaFileOutcome
  | notExist
  | readFailed
  | content (s : String) (jsonValid : Bool)
  deriving DecidableEq, Repr

/-- External outcomes consumed by one `RunTool` execution: the docker
client construction, the gotap probe's container, the run container's
create/start/wait/logs/stdcopy steps, the metadata file, and the
persistence failure flags. -/
structure RunToolEnv where
  newClientErr : Option String
  probe : ContainerEnv
  main : ContainerEnv
  metaFile : MetaFileOutcome
  flags : DbFlags
  deriving DecidableEq, Repr

/-- Result of one `RunTool` execution: a nil return, an error return, or
process termination through `log.Fatal` (which runs no deferred cleanup). -/
inductive RunResult
  | ok
  | err (e : String)
  | fatalExit
  deriving DecidableEq, Repr

/-- The error text `updateDB` persists for status "errored"
(`fmt.Sprintf("the execution of the tool (%v) container (%v) errored
unexpectedly: %v", ...)`). -/
def updateDBErrMsg (tool : ToolInfo) (orig : String) : String :=
  "the execution of the tool (" ++ tool.name ++ ") container ("
    ++ tool.image ++ ") errored unexpectedly: " ++ orig

/-- The `updateDB` closure of `RunTool` (lines 33-60): switch on the
status string; each branch performs its persistence operation and calls
`log.Fatal` when that operation fails — modelled as `none` (the process
terminates, nothing is returned to the caller). -/
def updateDB (flags : DbFlags) (tool : ToolInfo) (status : String)
    (origError : String) (r : RunRecord) : Option (RunRecord × List Ev) :=
  if status = "started" then
    if flags.startRunFails then none
    else some (StartRun r, [.dbStartRun])
  else if status = "finished" then
    if flags.finishRunFails then none
    else some (FinishRun r, [.dbFinishRun])
  else if status = "errored" then
    if flags.runErroredFails then none
    else some (RunErrored (updateDBErrMsg tool origError) r,
               [.dbRunErrored (updateDBErrMsg tool origError)])
  else some (r, [])

/-- Run-mode and container-config resolution (lines 86-102): a non-empty
custom `Cmd` is used verbatim in "default" mode; otherwise `ProbeGotap`
decides — a probe error transitions to errored and returns, a found shim
yields "gotap" mode with the shim entrypoint and canonical arguments, an
absent shim leaves the image defaults in "default" mode. -/
def resolveRunMode (opt : RunToolOptions) (env : RunToolEnv) (db0 : RunRecord) :
    (String × List String × List String × List Ev)
      ⊕ (RunResult × RunRecord × List Ev) :=
  if opt.cmd ≠ [] then .inl ("default", [], opt.cmd, [])
  else
    match ProbeGotap env.probe with
    | (.error e, tr) =>
      match updateDB env.flags opt.tool "errored" e db0 with
      | none => .inr (.fatalExit, db0, tr)
      | some (db1, evs) => .inr (.err e, db1, tr ++ evs)
    | (.ok none, tr) => .inl ("default", [], [], tr)
    | (.ok (some gotapPath), tr) =>
      .inl ("gotap", [gotapPath],
        ["run", opt.tool.name, "--input-file", "/in/inputs.json",
         "--spec-file", "/src/tool.yml", "--output-folder", "/out"], tr)

/-- The `_metadata.json` step (lines 164-185), reached only when an
output mount is present: valid JSON content is trimmed and persisted via
`SetRunGotapMetadata`, whose failure is only logged; invalid JSON and
read failures are only logged; an absent file is ignored. -/
def metadataStep (flags : DbFlags) (outDir : Option String)
    (mf : MetaFileOutcome) (r : RunRecord) : RunRecord × List Ev :=
  match outDir with
  | none => (r, [])
  | some _ =>
    match mf with
    | .content s true =>
      if flags.setMetadataFails then (r, [])
      else (SetRunGotapMetadata (goTrim s) r, [.dbSetMetadata (goTrim s)])
    | .content _ false => (r, [])
    | .notExist => (r, [])
    | .readFailed => (r, [])

/-- Body of `RunTool` after mode resolution (lines 104-194): create the
run container (creation failure → errored transition, return), start it
(failure → errored, return; success → `updateDB("started")`), wait,
open and demultiplex the log stream, write the log files, run the
metadata step, and finish with the exit-code check.  The container remove
and the log-reader close are deferred: they are appended on every normal
return after the respective resource exists and are skipped on
`log.Fatal` paths. -/
def runToolBody (opt : RunToolOptions) (env : RunToolEnv) (db0 : RunRecord)
    (runMode : String) (ep cmdL : List String) (tr0 : List Ev) :
    RunResult × RunRecord × List Ev :=
  match env.main.createErr with
  | some e =>
    match updateDB env.flags opt.tool "errored" e db0 with
    | none => (.fatalExit, db0, tr0)
    | some (db1, evs) => (.err e, db1, tr0 ++ evs)
  | none =>
    match env.main.startErr with
    | some e =>
      match updateDB env.flags opt.tool "errored" e db0 with
      | none => (.fatalExit, db0, tr0 ++ [.create ep cmdL])
      | some (db1, evs) =>
        (.err e, db1, tr0 ++ [.create ep cmdL] ++ evs ++ [.remove])
    | none =>
      match updateDB env.flags opt.tool "started" "" db0 with
      | none => (.fatalExit, db0, tr0 ++ [.create ep cmdL])
      | some (db1, evs1) =>
        match waitStep env.main.wait with
        | .error e =>
          match updateDB env.flags opt.tool "errored" e db1 with
          | none => (.fatalExit, db1, tr0 ++ [.create ep cmdL] ++ evs1)
          | some (db2, evs2) =>
            (.err e, db2, tr0 ++ [.create ep cmdL] ++ evs1 ++ evs2 ++ [.remove])
        | .ok exitCode =>
          match env.main.logsErr with
          | some e =>
            -- Source lines 140-143: `ContainerLogs` failure returns the
            -- error with no errored transition; the run stays `running`.
            (.err e, db1, tr0 ++ [.create ep cmdL] ++ evs1 ++ [.remove])
          | none =>
            match env.main.stdCopyErr with
            | some e =>
              match updateDB env.flags opt.tool "errored" e db1 with
              | none =>
                (.fatalExit, db1,
                 tr0 ++ [.create ep cmdL] ++ evs1 ++ [.logsOpen])
              | some (db2, evs2) =>
                (.err e, db2,
                 tr0 ++ [.create ep cmdL] ++ evs1 ++ [.logsOpen] ++ evs2
                   ++ [.logsClose, .remove])
            | none =>
              let pm := metadataStep env.flags
                ((opt.tool.mounts.find? (fun m => m.1 = "/out")).map (·.2))
                env.metaFile db1
              if exitCode ≠ 0 then
                match updateDB env.flags opt.tool "errored"
                    (runMode ++ " execution exited with status "
                      ++ toString exitCode) pm.1 with
                | none =>
                  (.fatalExit, pm.1,
                   tr0 ++ [.create ep cmdL] ++ evs1 ++ [.logsOpen] ++ pm.2)
                | some (db3, evs3) =>
                  (.err (runMode ++ " execution exited with status "
                      ++ toString exitCode), db3,
                   tr0 ++ [.create ep cmdL] ++ evs1 ++ [.logsOpen] ++ pm.2
                     ++ evs3 ++ [.logsClose, .remove])
              else
                match updateDB env.flags opt.tool "finished" "" pm.1 with
                | none =>
                  (.fatalExit, pm.1,
                   tr0 ++ [.create ep cmdL] ++ evs1 ++ [.logsOpen] ++ pm.2)
                | some (db3, evs3) =>
                  (.ok, db3,
                   tr0 ++ [.create ep cmdL] ++ evs1 ++ [.logsOpen] ++ pm.2
                     ++ evs3 ++ [.logsClose, .remove])

/-- Function `tool.RunTool` (lines 31-194), as the composition of client
construction (whose failure returns with no persistence transition), mode
resolution and the container-lifecycle body. -/
def RunTool (opt : RunToolOptions) (env : RunToolEnv) (db0 : RunRecord) :
    RunResult × RunRecord × List Ev :=
  match env.newClientErr with
  | some e => (.err e, db0, [])
  | none =>
    match resolveRunMode opt env db0 with
    | .inr out => out
    | .inl (runMode, ep, cmdL, tr0) => runToolBody opt env db0 runMode ep cmdL tr0

/-! ## Ownership-gated persistence queries (`sql/queries/runs.sql`) -/

/-- One row of `runs` as the ownership queries see it. -/
structure RunRow where
  id : Int
  userId : String
  deriving DecidableEq, Repr

/-- One row of `users`. -/
structure UserRow where
  id : String
  isAdmin : Bool
  deriving DecidableEq, Repr

/-- The scalar subquery `(SELECT u.is_admin FROM users u WHERE u.id = ?)`
(`none` when no such user exists, in which case `NULL = TRUE` is not
true). -/
def usersIsAdmin (users : List UserRow) (uid : String) : Option Bool :=
  (users.find? (fun u => u.id == uid)).map (·.isAdmin)

/-- The predicate `((SELECT u.is_admin ...) = TRUE OR r.user_id = ?)`
with both user placeholders bound to the caller's user id. -/
def adminOrOwner (users : List UserRow) (uid : String) (r : RunRow) : Bool :=
  (usersIsAdmin users uid == some true) || (r.userId == uid)

/-- Query `-- name: GetRun :one`. -/
def GetRun (runs : List RunRow) (users : List UserRow) (id : Int)
    (uid : String) : Option RunRow :=
  runs.find? (fun r => r.id == id && adminOrOwner users uid r)

/-- Query `-- name: GetAllRuns :many`. -/
def GetAllRuns (runs : List RunRow) (users : List UserRow)
    (uid : String) : List RunRow :=
  runs.filter (adminOrOwner users uid)

/-- Query `-- name: DeleteRun :exec`, returning the table contents after the
deletion. -/
def DeleteRun (runs : List RunRow) (users : List UserRow) (id : Int)
    (uid : String) : List RunRow :=
  runs.filter (fun r => !(r.id == id && adminOrOwner users uid r))

/-! ## Tool specification cache and service lookup -/

/-- Modelled from the spec: the `internal/cache` package is not under
src/; §4.1 of the spec gives it plain concurrent-map get/set/list
semantics.  Maps are embedded as association lists with last-write-wins
insertion. -/
structure Cache where
  imageSpecs : List (String × SpecFile)
  toolSpecs : List (String × ToolSpecRec)
  initialised : Bool
  deriving DecidableEq, Repr

/-- Modelled from the spec: map insertion (overwrite on equal key). -/
def cacheSet {β : Type} (l : List (String × β)) (k : String) (v : β) :
    List (String × β) :=
  (k, v) :: l.filter (fun kv => !(kv.1 == k))

/-- Modelled from the spec: `cache.GetImageSpec`. -/
def Cache.getImageSpec (c : Cache) (tag : String) : Option SpecFile :=
  (c.imageSpecs.find? (fun kv => kv.1 == tag)).map (·.2)

/-- Modelled from the spec: `cache.SetImageSpec`. -/
def Cache.setImageSpec (c : Cache) (tag : String) (s : SpecFile) : Cache :=
  { c with imageSpecs := cacheSet c.imageSpecs tag s }

/-- Modelled from the spec: `cache.SetToolSpec`. -/
def Cache.setToolSpec (c : Cache) (slug : String) (t : ToolSpecRec) : Cache :=
  { c with toolSpecs := cacheSet c.toolSpecs slug t }

/-- Modelled from the spec: `cache.ListToolSpecs` returns every cached
tool spec. -/
def Cache.listToolSpecs (c : Cache) : List ToolSpecRec :=
  c.toolSpecs.map (·.2)

/-- Method `Service.ListToolSpecs` (internal/service/service.go lines 59-72):
empty filter returns all cached specs; otherwise keep the specs whose
lower-cased name or title contains the lower-cased filter. -/
def ListToolSpecs (c : Cache) (filter : String) : List ToolSpecRec :=
  let specs := c.listToolSpecs
  if filter = "" then specs
  else
    specs.filter (fun spec =>
      goContains (goLower spec.name) (goLower filter)
        || goContains (goLower spec.title) (goLower filter))

/-! ## Discovery (`toolImage.ReadAllTools`) -/

/-- External outcomes consumed by one image's discovery goroutine: its
own docker client construction, the spec probe, and the citation read. -/
structure ImageEnv where
  clientErr : Option String
  specEnv : ReadSpecEnv
  citEnv : CitationEnv

/-- The tool-insertion loop shared by both branches of the goroutine:
give each declared tool its slug-qualified id, attach the citation when
one was read, cache it under the slug and collect the slug. -/
def insertTools (tag : String) (citation : Option String)
    (tools : List (String × ToolSpecRec)) (cache : Cache) :
    Cache × List String :=
  tools.foldl (fun acc nt =>
    (acc.1.setToolSpec (tag ++ "::" ++ nt.1)
      (match citation with
       | some c => { nt.2 with id := tag ++ "::" ++ nt.1, citation := some c }
       | none => { nt.2 with id := tag ++ "::" ++ nt.1 }),
     acc.2 ++ [tag ++ "::" ++ nt.1])) (cache, [])

/-- The per-image goroutine body of `ReadAllTools` (lines 316-364): an
already-cached image re-inserts its tools; otherwise a failure to build
the goroutine's docker client is sent as the goroutine's error, while a
`readToolSpec` failure of any kind is dropped (logged only when verbose)
and the image is skipped with no tools; on success the citation is read
best-effort and the spec and tools are cached. -/
def processImage (cache : Cache) (tag : String) (env : ImageEnv) :
    Except String (Cache × List String) :=
  match cache.getImageSpec tag with
  | some image => .ok (insertTools tag none image.tools cache)
  | none =>
    match env.clientErr with
    | some e => .error e
    | none =>
      match (readToolSpec env.specEnv tag).1 with
      | .error _ => .ok (cache, [])
      | .ok spec =>
        .ok (insertTools tag ((readToolCitation env.citEnv tag).1).toOption
          spec.tools (cache.setImageSpec tag spec))

/-- Function `toolImage.ReadAllTools` (lines 287-383), linearized: the goroutines'
results are collected in sequence (the Go code collects them in arrival
order from a channel); the first goroutine error aborts the whole call,
otherwise all slugs are concatenated and the cache is marked initialised
after the full pass. -/
def ReadAllTools (images : List (String × ImageEnv)) (cache : Cache) :
    Except String (Cache × List String) :=
  match images with
  | [] => .ok ({ cache with initialised := true }, [])
  | (tag, env) :: rest =>
    match processImage cache tag env with
    | .error e => .error e
    | .ok (c1, tools) =>
      match ReadAllTools rest c1 with
      | .error e => .error e
      | .ok (c2, more) => .ok (c2, tools ++ more)

/-! ## Concrete fixtures used by witnesses and counterexamples -/

/-- A freshly created Run record (`pending`, nothing stamped). -/
def pending0 : RunRecord :=
  { status := .pending, startedAt := false, finishedAt := false,
    errorMessage := none, hasErrored := false, gotapMetadata := none }

/-- A sample tool with an `/out` mount. -/
def tool0 : ToolInfo :=
  { id := 7, name := "mytool", image := "example/image:latest",
    mounts := [("/out", "/host/out"), ("/in", "/host/in")] }

/-- A container interaction in which every step succeeds and the
container exits 0. -/
def okContainer : ContainerEnv :=
  { createErr := none, startErr := none, wait := .statusChan none 0,
    logsErr := none, stdCopyErr := none, stdout := "", stderr := "" }

/-- No persistence operation fails. -/
def flagsOk : DbFlags :=
  { startRunFails := false, finishRunFails := false,
    runErroredFails := false, setMetadataFails := false }

/-- Options with a custom command override (mode "default", no probe). -/
def optCmd : RunToolOptions :=
  { tool := tool0, cmd := ["echo", "hi"], userId := "user-1" }

/-- A fully successful `RunTool` environment. -/
def envOk : RunToolEnv :=
  { newClientErr := none, probe := okContainer, main := okContainer,
    metaFile := .notExist, flags := flagsOk }

/-! ## C5 — ownership isolation of the run queries -/

/-- C5: for every pair of distinct user ids A and B where B is not an
administrator, a Run owned by A is never returned by `GetRun`, never
listed by `GetAllRuns`, and never deleted by `DeleteRun` when those
queries are invoked with user id B. -/
theorem C5_run_ownership_isolation
    (runs : List RunRow) (users : List UserRow) (a b : String) (r : RunRow)
    (hne : b ≠ a) (hadmin : usersIsAdmin users b ≠ some true)
    (hown : r.userId = a) :
    (∀ id, GetRun runs users id b ≠ some r) ∧
    r ∉ GetAllRuns runs users b ∧
    (r ∈ runs → ∀ id, r ∈ DeleteRun runs users id b) := by
  have hpred : adminOrOwner users b r = false := by
    simp only [adminOrOwner, Bool.or_eq_false_iff, beq_eq_false_iff_ne,
      ne_eq, hown]
    exact ⟨hadmin, fun h => hne h.symm⟩
  refine ⟨?_, ?_, ?_⟩
  · intro id h
    have := List.find?_some h
    simp [hpred] at this
  · intro h
    have := (List.mem_filter.mp h).2
    simp [hpred] at this
  · intro hmem id
    exact List.mem_filter.mpr ⟨hmem, by simp [hpred]⟩

/-- Witness for C5 at a concrete table: Bob (non-admin) can neither read,
list nor delete Alice's run. -/
theorem C5_run_ownership_isolation_witness :
    GetRun [⟨1, "alice"⟩] [⟨"alice", true⟩, ⟨"bob", false⟩] 1 "bob"
        ≠ some ⟨1, "alice"⟩ ∧
    (⟨1, "alice"⟩ : RunRow)
        ∉ GetAllRuns [⟨1, "alice"⟩] [⟨"alice", true⟩, ⟨"bob", false⟩] "bob" ∧
    (⟨1, "alice"⟩ : RunRow)
        ∈ DeleteRun [⟨1, "alice"⟩] [⟨"alice", true⟩, ⟨"bob", false⟩] 1 "bob" := by
  have h := C5_run_ownership_isolation [⟨1, "alice"⟩]
    [⟨"alice", true⟩, ⟨"bob", false⟩] "alice" "bob" ⟨1, "alice"⟩
    (by decide) (by decide) rfl
  exact ⟨h.1 1, h.2.1, h.2.2 (by decide) 1⟩

/-! ## C8 — service-level tool spec filtering -/

/-- C8: `ListToolSpecs` with the empty filter returns every cached spec,
and with a non-empty filter returns exactly the cached specs whose name
or title contains the filter as a case-insensitive substring. -/
theorem C8_listToolSpecs_filter (c : Cache) (f : String) (s : ToolSpecRec) :
    (f = "" → ListToolSpecs c f = c.listToolSpecs) ∧
    (f ≠ "" →
      (s ∈ ListToolSpecs c f ↔
        s ∈ c.listToolSpecs ∧
          ((∃ pre post, (goLower s.name).data
              = pre ++ (goLower f).data ++ post) ∨
           (∃ pre post, (goLower s.title).data
              = pre ++ (goLower f).data ++ post)))) := by
  constructor
  · intro h
    simp [ListToolSpecs, h]
  · intro h
    simp [ListToolSpecs, h, List.mem_filter, goContains_iff]

/-- Witness for C8 at a concrete cache and the filter "Xy". -/
theorem C8_listToolSpecs_filter_witness :
    (⟨"s1", "alpha-xY-tool", "Title A", none⟩ : ToolSpecRec)
        ∈ ListToolSpecs
            ⟨[], [("s1", ⟨"s1", "alpha-xY-tool", "Title A", none⟩),
                  ("s2", ⟨"s2", "beta-tool", "Title B", none⟩)], true⟩ "Xy" ↔
      (⟨"s1", "alpha-xY-tool", "Title A", none⟩ : ToolSpecRec)
          ∈ Cache.listToolSpecs
              ⟨[], [("s1", ⟨"s1", "alpha-xY-tool", "Title A", none⟩),
                    ("s2", ⟨"s2", "beta-tool", "Title B", none⟩)], true⟩ ∧
        ((∃ pre post, (goLower "alpha-xY-tool").data
            = pre ++ (goLower "Xy").data ++ post) ∨
         (∃ pre post, (goLower "Title A").data
            = pre ++ (goLower "Xy").data ++ post)) :=
  (C8_listToolSpecs_filter _ "Xy" _).2 (by decide)

/-! ## C10 — persistence failures inside updateDB call log.Fatal -/

/-- C10 (implicit): when any state transition inside `updateDB` fails —
`StartRun`, `FinishRun` or `RunErrored` — the engine terminates the whole
process via `log.Fatal` (modelled as the `none` outcome of `updateDB`,
resp. the `fatalExit` result of `RunTool`) instead of returning the
persistence error to its caller. -/
theorem C10_updateDB_failure_is_fatal
    (flags : DbFlags) (tool : ToolInfo) (e : String) (r : RunRecord) :
    (flags.startRunFails = true → updateDB flags tool "started" e r = none) ∧
    (flags.finishRunFails = true → updateDB flags tool "finished" e r = none) ∧
    (flags.runErroredFails = true → updateDB flags tool "errored" e r = none) ∧
    (∀ opt env db0, (env : RunToolEnv).newClientErr = none →
      (opt : RunToolOptions).cmd ≠ [] →
      env.main.createErr = none → env.main.startErr = none →
      env.flags.startRunFails = true →
      (RunTool opt env db0).1 = .fatalExit) := by
  refine ⟨fun h => by simp [updateDB, h], fun h => by simp [updateDB, h],
    fun h => by simp [updateDB, h], ?_⟩
  intro opt env db0 hclient hcmd hcreate hstart hflag
  simp [RunTool, resolveRunMode, runToolBody, updateDB,
    hclient, hcmd, hcreate, hstart, hflag]

/-- Witness for C10: concrete failing transitions, and a concrete
execution whose `StartRun` failure terminates the process. -/
theorem C10_updateDB_failure_is_fatal_witness :
    updateDB ⟨true, true, true, false⟩ tool0 "started" "" pending0 = none ∧
    updateDB ⟨true, true, true, false⟩ tool0 "finished" "" pending0 = none ∧
    updateDB ⟨true, true, true, false⟩ tool0 "errored" "" pending0 = none ∧
    (RunTool optCmd
      { envOk with flags := ⟨true, true, true, false⟩ } pending0).1
        = .fatalExit := by
  have h := C10_updateDB_failure_is_fatal ⟨true, true, true, false⟩
    tool0 "" pending0
  exact ⟨h.1 rfl, h.2.1 rfl, h.2.2.1 rfl,
    h.2.2.2 optCmd { envOk with flags := ⟨true, true, true, false⟩ }
      pending0 rfl (by decide) rfl rfl rfl⟩

/-! ## Counterexample fixtures and counterexamples -/

/-- A run container whose `ContainerLogs` call fails. -/
def envLogsFail : RunToolEnv :=
  { envOk with main := { okContainer with logsErr := some "log stream failure" } }

/-- C1 counterexample: when opening the log stream fails (source lines
140-143), `RunTool` returns the error while the Run's persisted status is
still `running` — a reachable failure path that ends in a non-terminal
persisted state with no `errored` transition, contradicting the claim. -/
theorem C1_counterexample :
    (RunTool optCmd envLogsFail pending0).1 = .err "log stream failure" ∧
    (RunTool optCmd envLogsFail pending0).2.1.status = .running ∧
    (RunTool optCmd envLogsFail pending0).2.1.errorMessage = none := by
  decide

/-- C2 counterexample: on a fully successful run the `running` transition
(`dbStartRun`) is persisted exactly once — after the container create and
start — not twice; there is no pre-flight persistence on entry. -/
theorem C2_counterexample :
    (RunTool optCmd envOk pending0).1 = .ok ∧
    (RunTool optCmd envOk pending0).2.2 =
      [.create [] ["echo", "hi"], .dbStartRun, .logsOpen, .dbFinishRun,
       .logsClose, .remove] := by
  decide

/-- A probe whose throwaway container cannot even be created. -/
def failProbeContainer : ContainerEnv :=
  { okContainer with createErr := some "docker daemon unreachable" }

/-- A spec-read environment whose shim probe fails at the container
runtime (an unreachable image), not for lack of a specification. -/
def specEnvProbeFail : ReadSpecEnv :=
  { probe := failProbeContainer, metadataCmd := okContainer,
    parseSpecFileCmd := okContainer, parsePathCmd := okContainer,
    catCmd := okContainer, parse := fun _ => .error "unused" }

/-- A citation environment that reports no citation file. -/
def citEnvNone : CitationEnv :=
  { cont := okContainer, parseCff := fun _ => .error "no cff" }

/-- A discovery goroutine environment whose docker client builds fine but
whose probe fails at the runtime. -/
def imageEnvProbeFail : ImageEnv :=
  { clientErr := none, specEnv := specEnvProbeFail, citEnv := citEnvNone }

/-- The empty cache. -/
def cache0 : Cache := ⟨[], [], false⟩

/-- C3 counterexample: an image whose probe fails with a container
runtime error ("docker daemon unreachable" — not a missing
specification) does not fail the discovery pass: `ReadAllTools` swallows
the `readToolSpec` error and returns success with the image skipped,
contradicting the claimed fail-fast propagation. -/
theorem C3_counterexample :
    (readToolSpec specEnvProbeFail "img:1").1
        = .error "docker daemon unreachable" ∧
    ReadAllTools [("img:1", imageEnvProbeFail)] cache0
        = .ok (⟨[], [], true⟩, []) :=
  ⟨rfl, rfl⟩

/-- A run whose container starts failing and whose `RunErrored`
transition also fails, triggering `log.Fatal` after the container was
created. -/
def envC9 : RunToolEnv :=
  { envOk with
    main := { okContainer with startErr := some "start failed" }
    flags := { flagsOk with runErroredFails := true } }

/-- C9 counterexample: when a persistence failure triggers `log.Fatal`
after the run container was created, the process exits without running
the deferred `ContainerRemove` — a path on which a successfully created
container is not removed. -/
theorem C9_counterexample :
    (RunTool optCmd envC9 pending0).1 = .fatalExit ∧
    (RunTool optCmd envC9 pending0).2.2.countP isCreateEv = 1 ∧
    (RunTool optCmd envC9 pending0).2.2.countP isRemoveEv = 0 := by
  decide

/-! ## Helper lemmas on traces and the metadata step -/

/-- Persistence events. -/
def isDbEv : Ev → Bool
  | .dbStartRun => true
  | .dbFinishRun => true
  | .dbRunErrored _ => true
  | .dbSetMetadata _ => true
  | _ => false

theorem runContainerCommand_no_db (env : ContainerEnv)
    (entrypoint cmd : List String) :
    ∀ e ∈ (runContainerCommand env entrypoint cmd).2, isDbEv e = false := by
  unfold runContainerCommand
  rcases env with ⟨ce, se, w, le, sce, so, sr⟩
  rcases ce with _ | e₁ <;> rcases se with _ | e₂ <;>
    rcases hw : waitStep w with e₃ | c <;>
    rcases le with _ | e₄ <;> rcases sce with _ | e₅ <;>
    simp [hw, isDbEv]

theorem ProbeGotap_no_db (env : ContainerEnv) :
    ∀ e ∈ (ProbeGotap env).2, isDbEv e = false := by
  unfold ProbeGotap
  have h := runContainerCommand_no_db env ["sh", "-lc"]
    ["command -v gotap || which gotap"]
  rcases hrc : runContainerCommand env ["sh", "-lc"]
      ["command -v gotap || which gotap"] with ⟨res, tr⟩
  rw [hrc] at h
  rcases res with e | ⟨so, sr, code⟩
  · simpa using h
  · by_cases h0 : code = 0 <;> by_cases ht : goTrim so = "" <;>
      simp [h0, ht] <;> exact fun e he => h e he

/-- Forget the metadata blob (everything else of the record kept). -/
def eraseMeta (r : RunRecord) : RunRecord := { r with gotapMetadata := none }

theorem metadataStep_fst (f : DbFlags) (o : Option String)
    (mf : MetaFileOutcome) (r : RunRecord) :
    eraseMeta (metadataStep f o mf r).1 = eraseMeta r := by
  unfold metadataStep
  rcases o with _ | d
  · rfl
  · rcases mf with _ | _ | ⟨s, v⟩
    · rfl
    · rfl
    · cases v
      · rfl
      · cases hms : f.setMetadataFails
        · simp [eraseMeta, SetRunGotapMetadata]
        · simp

theorem metadataStep_snd (f : DbFlags) (o : Option String)
    (mf : MetaFileOutcome) (r : RunRecord) :
    ∀ e ∈ (metadataStep f o mf r).2, ∃ m, e = Ev.dbSetMetadata m := by
  unfold metadataStep
  rcases o with _ | d
  · simp
  · rcases mf with _ | _ | ⟨s, v⟩
    · simp
    · simp
    · cases v
      · simp
      · cases hms : f.setMetadataFails <;> simp

theorem metadataStep_status (f : DbFlags) (o : Option String)
    (mf : MetaFileOutcome) (r : RunRecord) :
    (metadataStep f o mf r).1.status = r.status := by
  have h := congrArg RunRecord.status (metadataStep_fst f o mf r)
  simpa [eraseMeta] using h

theorem metadataStep_errorMessage (f : DbFlags) (o : Option String)
    (mf : MetaFileOutcome) (r : RunRecord) :
    (metadataStep f o mf r).1.errorMessage = r.errorMessage := by
  have h := congrArg RunRecord.errorMessage (metadataStep_fst f o mf r)
  simpa [eraseMeta] using h

theorem metadataStep_finishedAt (f : DbFlags) (o : Option String)
    (mf : MetaFileOutcome) (r : RunRecord) :
    (metadataStep f o mf r).1.finishedAt = r.finishedAt := by
  have h := congrArg RunRecord.finishedAt (metadataStep_fst f o mf r)
  simpa [eraseMeta] using h

/-! ## C1 — failure paths and terminal persisted states -/

theorem resolveRunMode_inr_classify (opt : RunToolOptions) (env : RunToolEnv)
    (db0 : RunRecord) (out : RunResult × RunRecord × List Ev)
    (h : resolveRunMode opt env db0 = .inr out) :
    out.1 = .fatalExit ∨
    ∃ e, out.1 = .err e ∧ out.2.1.status = .errored ∧
      out.2.1.errorMessage ≠ none := by
  unfold resolveRunMode at h
  by_cases hc : opt.cmd = []
  · rcases hp : ProbeGotap env.probe with ⟨res, tr⟩
    rw [hp] at h
    simp only [hc, ne_eq, not_true_eq_false, if_false] at h
    rcases res with e | g
    · cases hf : env.flags.runErroredFails
      · simp [updateDB, hf] at h
        right
        exact ⟨e, by simp [← h, RunErrored]⟩
      · simp [updateDB, hf] at h
        left
        simp [← h]
    · rcases g with _ | p <;> simp at h
  · simp [hc] at h

theorem runToolBody_classify (opt : RunToolOptions) (env : RunToolEnv)
    (db0 : RunRecord) (runMode : String) (ep cmdL : List String)
    (tr0 : List Ev) :
    ((runToolBody opt env db0 runMode ep cmdL tr0).1 = .ok →
      (runToolBody opt env db0 runMode ep cmdL tr0).2.1.status = .finished) ∧
    (∀ e, (runToolBody opt env db0 runMode ep cmdL tr0).1 = .err e →
      ((runToolBody opt env db0 runMode ep cmdL tr0).2.1.status = .errored ∧
        (runToolBody opt env db0 runMode ep cmdL tr0).2.1.errorMessage ≠ none)
      ∨ (env.main.logsErr = some e ∧
          (runToolBody opt env db0 runMode ep cmdL tr0).2.1.status
            = .running)) := by
  unfold runToolBody
  rcases hce : env.main.createErr with _ | e₁
  · rcases hse : env.main.startErr with _ | e₂
    · cases hsf : env.flags.startRunFails
      · simp only [updateDB, if_pos rfl, hsf, if_false, Bool.false_eq_true]
        rcases hw : waitStep env.main.wait with e₃ | c
        · cases hf : env.flags.runErroredFails
          · simp [updateDB, hf, RunErrored]
          · simp [updateDB, hf]
        · rcases hle : env.main.logsErr with _ | e₄
          · rcases hsc : env.main.stdCopyErr with _ | e₅
            · by_cases hc0 : c = 0
              · simp only [hc0, ne_eq, not_true_eq_false, if_false,
                  ite_false, reduceIte]
                cases hff : env.flags.finishRunFails
                · simp [updateDB, hff, FinishRun]
                · simp [updateDB, hff]
              · simp only [ne_eq, hc0, not_false_eq_true, if_true, reduceIte]
                cases hf : env.flags.runErroredFails
                · simp [updateDB, hf, RunErrored]
                · simp [updateDB, hf]
            · cases hf : env.flags.runErroredFails
              · simp [updateDB, hf, RunErrored]
              · simp [updateDB, hf]
          · simp [StartRun]
      · simp [updateDB, hsf]
    · cases hf : env.flags.runErroredFails
      · simp [updateDB, hf, RunErrored]
      · simp [updateDB, hf]
  · cases hf : env.flags.runErroredFails
    · simp [updateDB, hf, RunErrored]
    · simp [updateDB, hf]

/-- C1: apart from process termination through `log.Fatal`
(`fatalExit`), a returning `RunTool` leaves the Run `finished` on
success, and on every failure return the Run is `errored` with a
persisted message — except for the two paths the code actually exempts:
a docker-client construction failure returns the error with the record
untouched, and a log-stream-open failure returns the error with the
record still `running`. -/
theorem C1_failure_paths_terminal (opt : RunToolOptions) (env : RunToolEnv)
    (db0 : RunRecord) :
    ((RunTool opt env db0).1 = .ok →
      (RunTool opt env db0).2.1.status = .finished) ∧
    (∀ e, (RunTool opt env db0).1 = .err e →
      ((RunTool opt env db0).2.1.status = .errored ∧
        (RunTool opt env db0).2.1.errorMessage ≠ none)
      ∨ (env.newClientErr = some e ∧ (RunTool opt env db0).2.1 = db0)
      ∨ (env.main.logsErr = some e ∧
          (RunTool opt env db0).2.1.status = .running)) := by
  rcases hnc : env.newClientErr with _ | e₀
  · rcases hrm : resolveRunMode opt env db0 with ⟨m1, m2, m3, m4⟩ | out
    · have hB := runToolBody_classify opt env db0 m1 m2 m3 m4
      simp only [RunTool, hnc, hrm]
      exact ⟨hB.1, fun e he => (hB.2 e he).imp id Or.inr⟩
    · have hcl := resolveRunMode_inr_classify opt env db0 out hrm
      simp only [RunTool, hnc, hrm]
      rcases hcl with h | ⟨e, he, hst, hmsg⟩
      · constructor
        · intro hok; rw [hok] at h; cases h
        · intro e he'; rw [he'] at h; cases h
      · constructor
        · intro hok; rw [hok] at he; cases he
        · intro e' he'
          rw [he'] at he
          exact Or.inl ⟨hst, hmsg⟩
  · simp [RunTool, hnc]

/-- Witness for C1 on a fully successful concrete run. -/
theorem C1_failure_paths_terminal_witness :
    (RunTool optCmd envOk pending0).2.1.status = .finished :=
  (C1_failure_paths_terminal optCmd envOk pending0).1 (by decide)

/-! ## C9 — deferred cleanup on non-fatal paths -/

theorem metadataStep_counts (f : DbFlags) (o : Option String)
    (mf : MetaFileOutcome) (r : RunRecord) :
    (metadataStep f o mf r).2.countP isCreateEv = 0 ∧
    (metadataStep f o mf r).2.countP isRemoveEv = 0 ∧
    (metadataStep f o mf r).2.countP isLogsOpenEv = 0 ∧
    (metadataStep f o mf r).2.countP isLogsCloseEv = 0 := by
  unfold metadataStep
  rcases o with _ | d
  · simp
  · rcases mf with _ | _ | ⟨s, v⟩
    · simp
    · simp
    · cases v
      · simp
      · cases hms : f.setMetadataFails <;>
          simp [isCreateEv, isRemoveEv, isLogsOpenEv, isLogsCloseEv]

theorem resolveRunMode_inl_balanced (opt : RunToolOptions) (env : RunToolEnv)
    (db0 : RunRecord) (m : String × List String × List String × List Ev)
    (h : resolveRunMode opt env db0 = .inl m) :
    balancedTrace m.2.2.2 := by
  unfold resolveRunMode at h
  by_cases hc : opt.cmd = []
  · have hbal := ProbeGotap_balanced env.probe
    rcases hp : ProbeGotap env.probe with ⟨res, tr⟩
    rw [hp] at h hbal
    simp only [hc, ne_eq, not_true_eq_false, if_false] at h
    rcases res with e | g
    · cases hf : env.flags.runErroredFails <;> simp [updateDB, hf] at h
    · rcases g with _ | p <;> simp at h <;> rw [← h] <;> exact hbal
  · simp [hc] at h
    rw [← h]
    exact ⟨rfl, rfl⟩

theorem resolveRunMode_inr_balanced (opt : RunToolOptions) (env : RunToolEnv)
    (db0 : RunRecord) (out : RunResult × RunRecord × List Ev)
    (h : resolveRunMode opt env db0 = .inr out)
    (hnf : out.1 ≠ .fatalExit) :
    balancedTrace out.2.2 := by
  unfold resolveRunMode at h
  by_cases hc : opt.cmd = []
  · have hbal := ProbeGotap_balanced env.probe
    rcases hp : ProbeGotap env.probe with ⟨res, tr⟩
    rw [hp] at h hbal
    simp only [hc, ne_eq, not_true_eq_false, if_false] at h
    rcases res with e | g
    · cases hf : env.flags.runErroredFails
      · simp [updateDB, hf] at h
        rw [← h]
        simp only [balancedTrace, List.countP_append] at hbal ⊢
        simp [List.countP_cons, isCreateEv, isRemoveEv, isLogsOpenEv,
          isLogsCloseEv]
        omega
      · simp [updateDB, hf] at h
        rw [← h] at hnf
        simp at hnf
    · rcases g with _ | p <;> simp at h
  · simp [hc] at h

theorem runToolBody_balanced (opt : RunToolOptions) (env : RunToolEnv)
    (db0 : RunRecord) (runMode : String) (ep cmdL : List String)
    (tr0 : List Ev) (htr : balancedTrace tr0) :
    (runToolBody opt env db0 runMode ep cmdL tr0).1 ≠ .fatalExit →
      balancedTrace (runToolBody opt env db0 runMode ep cmdL tr0).2.2 := by
  obtain ⟨ht1, ht2⟩ := htr
  unfold runToolBody
  rcases hce : env.main.createErr with _ | e₁
  · rcases hse : env.main.startErr with _ | e₂
    · cases hsf : env.flags.startRunFails
      · simp only [updateDB, if_pos rfl, hsf, Bool.false_eq_true, if_false]
        rcases hw : waitStep env.main.wait with e₃ | c
        · cases hf : env.flags.runErroredFails <;>
            simp [updateDB, hf, balancedTrace, List.countP_append,
              List.countP_cons, isCreateEv, isRemoveEv, isLogsOpenEv,
              isLogsCloseEv] <;> omega
        · rcases hle : env.main.logsErr with _ | e₄
          · rcases hsc : env.main.stdCopyErr with _ | e₅
            · obtain ⟨hm1, hm2, hm3, hm4⟩ := metadataStep_counts env.flags
                ((opt.tool.mounts.find? (fun m => m.1 = "/out")).map (·.2))
                env.metaFile (StartRun db0)
              by_cases hc0 : c = 0
              · simp only [hc0, ne_eq, not_true_eq_false, if_false, reduceIte]
                cases hff : env.flags.finishRunFails <;>
                  simp [updateDB, hff, balancedTrace, List.countP_append,
                    List.countP_cons, isCreateEv, isRemoveEv, isLogsOpenEv,
                    isLogsCloseEv, hm1, hm2, hm3, hm4] <;> omega
              · simp only [ne_eq, hc0, not_false_eq_true, if_true, reduceIte]
                cases hf : env.flags.runErroredFails <;>
                  simp [updateDB, hf, balancedTrace, List.countP_append,
                    List.countP_cons, isCreateEv, isRemoveEv, isLogsOpenEv,
                    isLogsCloseEv, hm1, hm2, hm3, hm4] <;> omega
            · cases hf : env.flags.runErroredFails <;>
                simp [updateDB, hf, balancedTrace, List.countP_append,
                  List.countP_cons, isCreateEv, isRemoveEv, isLogsOpenEv,
                  isLogsCloseEv] <;> omega
          · simp [balancedTrace, List.countP_append, List.countP_cons,
              isCreateEv, isRemoveEv, isLogsOpenEv, isLogsCloseEv]
            omega
      · simp [updateDB, hsf]
    · cases hf : env.flags.runErroredFails <;>
        simp [updateDB, hf, balancedTrace, List.countP_append,
          List.countP_cons, isCreateEv, isRemoveEv, isLogsOpenEv,
          isLogsCloseEv] <;> omega
  · cases hf : env.flags.runErroredFails <;>
      simp [updateDB, hf, balancedTrace, List.countP_append, List.countP_cons,
        isCreateEv, isRemoveEv, isLogsOpenEv, isLogsCloseEv] <;> omega

/-- C9 (amended): every container created by a discovery probe is removed
afterward and its log reader closed once opened; for the engine the same
holds on every path that does not terminate the process through
`log.Fatal` — on a `log.Fatal` path the deferred cleanup is skipped (see
the counterexample). -/
theorem C9_cleanup_on_nonfatal_paths (cenv : ContainerEnv)
    (ep cm : List String) (opt : RunToolOptions) (env : RunToolEnv)
    (db0 : RunRecord) :
    balancedTrace (runContainerCommand cenv ep cm).2 ∧
    ((RunTool opt env db0).1 ≠ .fatalExit →
      balancedTrace (RunTool opt env db0).2.2) := by
  refine ⟨runContainerCommand_balanced cenv ep cm, ?_⟩
  intro hnf
  rcases hnc : env.newClientErr with _ | e₀
  · rcases hrm : resolveRunMode opt env db0 with ⟨m1, m2, m3, m4⟩ | out
    · have hbal := resolveRunMode_inl_balanced opt env db0 (m1, m2, m3, m4) hrm
      simp only [RunTool, hnc, hrm] at hnf ⊢
      exact runToolBody_balanced opt env db0 m1 m2 m3 m4 hbal hnf
    · simp only [RunTool, hnc, hrm] at hnf ⊢
      exact resolveRunMode_inr_balanced opt env db0 out hrm hnf
  · simp [RunTool, hnc, balancedTrace]

/-- Witness for C9 on concrete inputs (a probe container interaction and
a fully successful engine run). -/
theorem C9_cleanup_on_nonfatal_paths_witness :
    balancedTrace (runContainerCommand okContainer ["sh", "-lc"] ["true"]).2 ∧
    balancedTrace (RunTool optCmd envOk pending0).2.2 := by
  have h := C9_cleanup_on_nonfatal_paths okContainer ["sh", "-lc"] ["true"]
    optCmd envOk pending0
  exact ⟨h.1, h.2 (by decide)⟩

/-! ## C2 — the running transition is persisted once, post-start -/

theorem isDbEv_false_start (e : Ev) (h : isDbEv e = false) :
    isDbStartRunEv e = false := by
  cases e <;> simp_all [isDbEv, isDbStartRunEv]

theorem resolveRunMode_inl_no_db (opt : RunToolOptions) (env : RunToolEnv)
    (db0 : RunRecord) (m : String × List String × List String × List Ev)
    (h : resolveRunMode opt env db0 = .inl m) :
    ∀ e ∈ m.2.2.2, isDbEv e = false := by
  unfold resolveRunMode at h
  by_cases hc : opt.cmd = []
  · have hdb := ProbeGotap_no_db env.probe
    rcases hp : ProbeGotap env.probe with ⟨res, tr⟩
    rw [hp] at h hdb
    simp only [hc, ne_eq, not_true_eq_false, if_false] at h
    rcases res with e | g
    · cases hf : env.flags.runErroredFails <;> simp [updateDB, hf] at h
    · rcases g with _ | p <;> simp at h <;> rw [← h] <;> exact hdb
  · simp [hc] at h
    rw [← h]
    simp

theorem resolveRunMode_inl_no_dbStart (opt : RunToolOptions)
    (env : RunToolEnv) (db0 : RunRecord)
    (m : String × List String × List String × List Ev)
    (h : resolveRunMode opt env db0 = .inl m) :
    m.2.2.2.countP isDbStartRunEv = 0 :=
  List.countP_eq_zero.mpr fun e he => by
    simp [isDbEv_false_start e (resolveRunMode_inl_no_db opt env db0 m h e he)]

theorem metadataStep_countP_start (f : DbFlags) (o : Option String)
    (mf : MetaFileOutcome) (r : RunRecord) :
    (metadataStep f o mf r).2.countP isDbStartRunEv = 0 :=
  List.countP_eq_zero.mpr fun e he => by
    obtain ⟨m, rfl⟩ := metadataStep_snd f o mf r e he
    simp [isDbStartRunEv]

theorem runToolBody_dbStart (opt : RunToolOptions) (env : RunToolEnv)
    (db0 : RunRecord) (runMode : String) (ep cmdL : List String)
    (tr0 : List Ev) (hce : env.main.createErr = none)
    (hse : env.main.startErr = none)
    (hsf : env.flags.startRunFails = false) :
    ∃ rest, (runToolBody opt env db0 runMode ep cmdL tr0).2.2
        = tr0 ++ [Ev.create ep cmdL, Ev.dbStartRun] ++ rest
      ∧ rest.countP isDbStartRunEv = 0 := by
  have hmS := metadataStep_countP_start env.flags
    ((opt.tool.mounts.find? (fun m => m.1 = "/out")).map (·.2))
    env.metaFile (StartRun db0)
  unfold runToolBody
  rw [hce, hse]
  simp only [updateDB, if_pos rfl, hsf, Bool.false_eq_true, if_false]
  rcases hw : waitStep env.main.wait with e₃ | c
  · cases hf : env.flags.runErroredFails
    · simp only [updateDB, hf, reduceIte, Bool.false_eq_true]
      exact ⟨[Ev.dbRunErrored (updateDBErrMsg opt.tool e₃), .remove],
        by simp, by simp [List.countP_cons, isDbStartRunEv]⟩
    · simp only [updateDB, hf, reduceIte]
      exact ⟨[], by simp, by simp⟩
  · rcases hle : env.main.logsErr with _ | e₄
    · rcases hsc : env.main.stdCopyErr with _ | e₅
      · by_cases hc0 : c = 0
        · simp only [hc0, ne_eq, not_true_eq_false, if_false, reduceIte]
          cases hff : env.flags.finishRunFails
          · simp only [updateDB, hff, reduceIte, Bool.false_eq_true]
            refine ⟨Ev.logsOpen :: ((metadataStep env.flags
              ((opt.tool.mounts.find? (fun m => m.1 = "/out")).map (·.2))
              env.metaFile (StartRun db0)).2
                ++ [Ev.dbFinishRun, .logsClose, .remove]), by simp, ?_⟩
            simp [List.countP_cons, List.countP_append, isDbStartRunEv, hmS]
          · simp only [updateDB, hff, reduceIte]
            refine ⟨Ev.logsOpen :: (metadataStep env.flags
              ((opt.tool.mounts.find? (fun m => m.1 = "/out")).map (·.2))
              env.metaFile (StartRun db0)).2, by simp, ?_⟩
            simp [List.countP_cons, isDbStartRunEv, hmS]
        · simp only [ne_eq, hc0, not_false_eq_true, if_true, reduceIte]
          cases hf : env.flags.runErroredFails
          · simp only [updateDB, hf, reduceIte, Bool.false_eq_true]
            refine ⟨Ev.logsOpen :: ((metadataStep env.flags
              ((opt.tool.mounts.find? (fun m => m.1 = "/out")).map (·.2))
              env.metaFile (StartRun db0)).2
                ++ [Ev.dbRunErrored (updateDBErrMsg opt.tool
                      (runMode ++ " execution exited with status "
                        ++ toString c)), .logsClose, .remove]), by simp, ?_⟩
            simp [List.countP_cons, List.countP_append, isDbStartRunEv, hmS]
          · simp only [updateDB, hf, reduceIte]
            refine ⟨Ev.logsOpen :: (metadataStep env.flags
              ((opt.tool.mounts.find? (fun m => m.1 = "/out")).map (·.2))
              env.metaFile (StartRun db0)).2, by simp, ?_⟩
            simp [List.countP_cons, isDbStartRunEv, hmS]
      · cases hf : env.flags.runErroredFails
        · simp only [updateDB, hf, reduceIte, Bool.false_eq_true]
          exact ⟨[Ev.logsOpen, .dbRunErrored (updateDBErrMsg opt.tool e₅),
            .logsClose, .remove], by simp,
            by simp [List.countP_cons, isDbStartRunEv]⟩
        · simp only [updateDB, hf, reduceIte]
          exact ⟨[Ev.logsOpen], by simp,
            by simp [List.countP_cons, isDbStartRunEv]⟩
    · exact ⟨[Ev.remove], by simp, by simp [List.countP_cons, isDbStartRunEv]⟩

/-- C2 (amended): on any execution that reaches a successful container
start, the `running` transition is persisted exactly once — immediately
after the successful `ContainerStart`, hence after the container create —
and never pre-flight on entry. -/
theorem C2_running_persisted_once (opt : RunToolOptions) (env : RunToolEnv)
    (db0 : RunRecord) (m : String × List String × List String × List Ev)
    (hnc : env.newClientErr = none)
    (hrm : resolveRunMode opt env db0 = .inl m)
    (hce : env.main.createErr = none) (hse : env.main.startErr = none)
    (hsf : env.flags.startRunFails = false) :
    ∃ rest, (RunTool opt env db0).2.2
        = m.2.2.2 ++ [Ev.create m.2.1 m.2.2.1, Ev.dbStartRun] ++ rest
      ∧ m.2.2.2.countP isDbStartRunEv = 0
      ∧ rest.countP isDbStartRunEv = 0 := by
  obtain ⟨m1, m2, m3, m4⟩ := m
  obtain ⟨rest, hr, hcount⟩ :=
    runToolBody_dbStart opt env db0 m1 m2 m3 m4 hce hse hsf
  refine ⟨rest, ?_, resolveRunMode_inl_no_dbStart opt env db0 _ hrm, hcount⟩
  simp only [RunTool, hnc, hrm]
  exact hr

/-- Witness for C2: the concrete successful run persists `running`
exactly once, right after the container create. -/
theorem C2_running_persisted_once_witness :
    ∃ rest, (RunTool optCmd envOk pending0).2.2
        = [] ++ [Ev.create [] ["echo", "hi"], Ev.dbStartRun] ++ rest
      ∧ ([] : List Ev).countP isDbStartRunEv = 0
      ∧ rest.countP isDbStartRunEv = 0 :=
  C2_running_persisted_once optCmd envOk pending0
    ("default", [], ["echo", "hi"], []) rfl (by decide) rfl rfl rfl

/-! ## C4 — final state by exit code -/

theorem goContains_suffix (a b : String) : goContains (a ++ b) b = true :=
  (goContains_iff (a ++ b) b).mpr ⟨a.data, [], by simp⟩

theorem resolveRunMode_inl_mode (opt : RunToolOptions) (env : RunToolEnv)
    (db0 : RunRecord) (m : String × List String × List String × List Ev)
    (h : resolveRunMode opt env db0 = .inl m) :
    m.1 = "default" ∨ m.1 = "gotap" := by
  unfold resolveRunMode at h
  by_cases hc : opt.cmd = []
  · rcases hp : ProbeGotap env.probe with ⟨res, tr⟩
    rw [hp] at h
    simp only [hc, ne_eq, not_true_eq_false, if_false] at h
    rcases res with e | g
    · cases hf : env.flags.runErroredFails <;> simp [updateDB, hf] at h
    · rcases g with _ | p <;> simp at h <;> rw [← h] <;> simp
  · simp [hc] at h
    rw [← h]
    simp

/-- C4: a run whose container exits 0 ends `finished` with finished_at
stamped and error_message still unset; a run whose container exits
non-zero ends `errored` with a persisted message that contains the run
mode ("default" or "gotap", the code's name for shim mode) and the exit
code. -/
theorem C4_exit_code_final_state (opt : RunToolOptions) (env : RunToolEnv)
    (db0 : RunRecord) (m : String × List String × List String × List Ev)
    (c : Int) (hnc : env.newClientErr = none)
    (hrm : resolveRunMode opt env db0 = .inl m)
    (hce : env.main.createErr = none) (hse : env.main.startErr = none)
    (hsf : env.flags.startRunFails = false)
    (hw : env.main.wait = .statusChan none c)
    (hle : env.main.logsErr = none) (hsc : env.main.stdCopyErr = none) :
    (c = 0 → env.flags.finishRunFails = false → db0.errorMessage = none →
      (RunTool opt env db0).1 = .ok ∧
      (RunTool opt env db0).2.1.status = .finished ∧
      (RunTool opt env db0).2.1.finishedAt = true ∧
      (RunTool opt env db0).2.1.errorMessage = none) ∧
    (c ≠ 0 → env.flags.runErroredFails = false →
      (RunTool opt env db0).2.1.status = .errored ∧
      ∃ msg, (RunTool opt env db0).2.1.errorMessage = some msg ∧
        goContains msg (m.1 ++ " execution exited with status " ++ toString c)
          = true ∧
        (m.1 = "default" ∨ m.1 = "gotap")) := by
  obtain ⟨m1, m2, m3, m4⟩ := m
  have hmode := resolveRunMode_inl_mode opt env db0 (m1, m2, m3, m4) hrm
  have hmE := metadataStep_errorMessage env.flags
    ((opt.tool.mounts.find? (fun m => m.1 = "/out")).map (·.2))
    env.metaFile (StartRun db0)
  constructor
  · intro hc0 hff hdb
    subst hc0
    simp only [RunTool, hnc, hrm, runToolBody, hce, hse, updateDB,
      if_pos rfl, hsf, Bool.false_eq_true, if_false, hw, waitStep, hle, hsc,
      ne_eq, not_true_eq_false, reduceIte, hff, FinishRun]
    refine ⟨rfl, rfl, rfl, ?_⟩
    rw [hmE]
    simpa [StartRun] using hdb
  · intro hc0 hf
    simp only [RunTool, hnc, hrm, runToolBody, hce, hse, updateDB,
      if_pos rfl, hsf, Bool.false_eq_true, if_false, hw, waitStep, hle, hsc,
      ne_eq, hc0, not_false_eq_true, if_true, reduceIte, hf, RunErrored]
    refine ⟨rfl, _, rfl, ?_, hmode⟩
    exact goContains_suffix _ _

/-- Witness for C4: a concrete exit-0 run finishing cleanly and a
concrete exit-3 run erroring with the mode and exit code in the message. -/
theorem C4_exit_code_final_state_witness :
    ((RunTool optCmd envOk pending0).1 = .ok ∧
      (RunTool optCmd envOk pending0).2.1.status = .finished ∧
      (RunTool optCmd envOk pending0).2.1.finishedAt = true ∧
      (RunTool optCmd envOk pending0).2.1.errorMessage = none) ∧
    ((RunTool optCmd
        { envOk with main := { okContainer with wait := .statusChan none 3 } }
        pending0).2.1.status = .errored ∧
      ∃ msg, (RunTool optCmd
          { envOk with main := { okContainer with wait := .statusChan none 3 } }
          pending0).2.1.errorMessage = some msg ∧
        goContains msg ("default" ++ " execution exited with status "
          ++ toString (3 : Int)) = true ∧
        ("default" = "default" ∨ "default" = "gotap")) := by
  constructor
  · exact (C4_exit_code_final_state optCmd envOk pending0
      ("default", [], ["echo", "hi"], []) 0 rfl (by decide) rfl rfl rfl rfl
      rfl rfl).1 rfl rfl rfl
  · exact (C4_exit_code_final_state optCmd
      { envOk with main := { okContainer with wait := .statusChan none 3 } }
      pending0 ("default", [], ["echo", "hi"], []) 3 rfl (by decide) rfl rfl
      rfl rfl rfl rfl).2 (by decide) rfl

/-! ## C7 — metadata recovery is best-effort and non-fatal -/

theorem eraseMeta_FinishRun (r : RunRecord) :
    eraseMeta (FinishRun r) = FinishRun (eraseMeta r) := rfl

theorem eraseMeta_RunErrored (m : String) (r : RunRecord) :
    eraseMeta (RunErrored m r) = RunErrored m (eraseMeta r) := rfl

theorem resolveRunMode_congr (opt : RunToolOptions) (db0 : RunRecord)
    (envA envB : RunToolEnv) (hp : envA.probe = envB.probe)
    (hsf : envA.flags.startRunFails = envB.flags.startRunFails)
    (hff : envA.flags.finishRunFails = envB.flags.finishRunFails)
    (hef : envA.flags.runErroredFails = envB.flags.runErroredFails) :
    resolveRunMode opt envA db0 = resolveRunMode opt envB db0 := by
  unfold resolveRunMode updateDB
  rw [hp, hsf, hff, hef]

theorem runToolBody_meta_invariant (opt : RunToolOptions) (db0 : RunRecord)
    (runMode : String) (ep cmdL : List String) (tr0 : List Ev)
    (envA envB : RunToolEnv) (hmain : envA.main = envB.main)
    (hsf : envA.flags.startRunFails = envB.flags.startRunFails)
    (hff : envA.flags.finishRunFails = envB.flags.finishRunFails)
    (hef : envA.flags.runErroredFails = envB.flags.runErroredFails) :
    (runToolBody opt envA db0 runMode ep cmdL tr0).1
        = (runToolBody opt envB db0 runMode ep cmdL tr0).1 ∧
    eraseMeta (runToolBody opt envA db0 runMode ep cmdL tr0).2.1
        = eraseMeta (runToolBody opt envB db0 runMode ep cmdL tr0).2.1 := by
  have hup : ∀ st e r, updateDB envA.flags opt.tool st e r
      = updateDB envB.flags opt.tool st e r := by
    intro st e r
    unfold updateDB
    rw [hsf, hff, hef]
  unfold runToolBody
  rw [hmain]
  simp only [hup]
  rcases hce : envB.main.createErr with _ | e₁
  · rcases hse : envB.main.startErr with _ | e₂
    · cases hsfB : envB.flags.startRunFails
      · simp only [updateDB, if_pos rfl, hsfB, Bool.false_eq_true, if_false]
        rcases hw : waitStep envB.main.wait with e₃ | c
        · cases hf : envB.flags.runErroredFails <;>
            simp [updateDB, hf, eraseMeta_RunErrored]
        · rcases hle : envB.main.logsErr with _ | e₄
          · rcases hsc : envB.main.stdCopyErr with _ | e₅
            · by_cases hc0 : c = 0
              · simp only [hc0, ne_eq, not_true_eq_false, if_false, reduceIte]
                cases hffB : envB.flags.finishRunFails <;>
                  simp [updateDB, hffB, eraseMeta_FinishRun, metadataStep_fst]
              · simp only [ne_eq, hc0, not_false_eq_true, if_true, reduceIte]
                cases hf : envB.flags.runErroredFails <;>
                  simp [updateDB, hf, eraseMeta_RunErrored, metadataStep_fst]
            · cases hf : envB.flags.runErroredFails <;>
                simp [updateDB, hf, eraseMeta_RunErrored]
          · simp
      · simp [updateDB, hsfB]
    · cases hf : envB.flags.runErroredFails <;>
        simp [updateDB, hf, eraseMeta_RunErrored]
  · cases hf : envB.flags.runErroredFails <;>
      simp [updateDB, hf, eraseMeta_RunErrored]

theorem RunTool_meta_invariant (opt : RunToolOptions) (db0 : RunRecord)
    (envA envB : RunToolEnv)
    (hnc : envA.newClientErr = envB.newClientErr)
    (hp : envA.probe = envB.probe) (hmain : envA.main = envB.main)
    (hsf : envA.flags.startRunFails = envB.flags.startRunFails)
    (hff : envA.flags.finishRunFails = envB.flags.finishRunFails)
    (hef : envA.flags.runErroredFails = envB.flags.runErroredFails) :
    (RunTool opt envA db0).1 = (RunTool opt envB db0).1 ∧
    eraseMeta (RunTool opt envA db0).2.1
      = eraseMeta (RunTool opt envB db0).2.1 := by
  rcases hB : envB.newClientErr with _ | e₀
  · have hA : envA.newClientErr = none := hnc.trans hB
    have hres := resolveRunMode_congr opt db0 envA envB hp hsf hff hef
    rcases hrm : resolveRunMode opt envB db0 with ⟨m1, m2, m3, m4⟩ | out
    · rw [hrm] at hres
      simp only [RunTool, hA, hB, hres, hrm]
      exact runToolBody_meta_invariant opt db0 m1 m2 m3 m4 envA envB
        hmain hsf hff hef
    · rw [hrm] at hres
      simp [RunTool, hA, hB, hres, hrm]
  · have hA : envA.newClientErr = some e₀ := hnc.trans hB
    simp [RunTool, hA, hB]

/-- C7: (a) when the run reaches its post-wait phase with an output
mount present and `_metadata.json` holds valid JSON, the trimmed content
is persisted onto the record (provided the persistence call itself does
not fail); (b) the metadata file and a `SetRunGotapMetadata` failure
never influence the run's result or any persisted field other than the
metadata blob — in particular a persistence failure there is neither
fatal nor an errored transition, invalid JSON is skipped, and an absent
file changes nothing. -/
theorem C7_gotap_metadata_best_effort (opt : RunToolOptions)
    (env : RunToolEnv) (db0 : RunRecord)
    (m : String × List String × List String × List Ev) (c : Int) (s : String)
    (mnt : String × String) :
    ((env.newClientErr = none → resolveRunMode opt env db0 = .inl m →
      env.main.createErr = none → env.main.startErr = none →
      env.flags.startRunFails = false → waitStep env.main.wait = .ok c →
      env.main.logsErr = none → env.main.stdCopyErr = none →
      opt.tool.mounts.find? (fun mt => mt.1 = "/out") = some mnt →
      env.metaFile = .content s true → env.flags.setMetadataFails = false →
      (RunTool opt env db0).2.1.gotapMetadata = some (goTrim s))) ∧
    (∀ mf b,
      (RunTool opt
          { env with
            metaFile := mf
            flags := { env.flags with setMetadataFails := b } } db0).1
        = (RunTool opt ({ env with metaFile := .notExist }) db0).1 ∧
      eraseMeta (RunTool opt
          { env with
            metaFile := mf
            flags := { env.flags with setMetadataFails := b } } db0).2.1
        = eraseMeta (RunTool opt
            ({ env with metaFile := .notExist }) db0).2.1) := by
  constructor
  · intro hnc hrm hce hse hsf hwc hle hsc hmnt hmeta hsm
    obtain ⟨m1, m2, m3, m4⟩ := m
    simp only [RunTool, hnc, hrm, runToolBody, hce, hse, updateDB,
      if_pos rfl, hsf, Bool.false_eq_true, if_false, hwc, hle, hsc]
    have hpm : (metadataStep env.flags
        ((opt.tool.mounts.find? (fun mt => mt.1 = "/out")).map (·.2))
        env.metaFile (StartRun db0)).1.gotapMetadata = some (goTrim s) := by
      simp [metadataStep, hmnt, hmeta, hsm, SetRunGotapMetadata]
    by_cases hc0 : c = 0
    · simp only [hc0, ne_eq, not_true_eq_false, if_false, reduceIte]
      cases hff : env.flags.finishRunFails <;>
        simp only [Bool.false_eq_true, if_false, reduceIte, FinishRun] <;>
        exact hpm
    · simp only [ne_eq, hc0, not_false_eq_true, if_true, reduceIte]
      cases hf : env.flags.runErroredFails <;>
        simp only [Bool.false_eq_true, if_false, reduceIte, RunErrored] <;>
        exact hpm
  · intro mf b
    exact RunTool_meta_invariant opt db0 _ _ rfl rfl rfl rfl rfl rfl

/-- Witness for C7: the concrete run with a valid `_metadata.json`
persists the trimmed blob, and the concrete invariance instance holds. -/
theorem C7_gotap_metadata_best_effort_witness :
    (RunTool optCmd
        ({ envOk with metaFile := .content " 42 " true }) pending0).2.1.gotapMetadata
      = some (goTrim " 42 ") ∧
    (RunTool optCmd
        { envOk with
          metaFile := .content "not json" false
          flags := { flagsOk with setMetadataFails := true } } pending0).1
      = (RunTool optCmd ({ envOk with metaFile := .notExist }) pending0).1 := by
  constructor
  · exact (C7_gotap_metadata_best_effort optCmd
      ({ envOk with metaFile := .content " 42 " true }) pending0
      ("default", [], ["echo", "hi"], []) 0 " 42 " ("/out", "/host/out")).1
      rfl (by decide) rfl rfl rfl rfl rfl rfl (by decide) rfl rfl
  · exact ((C7_gotap_metadata_best_effort optCmd envOk pending0
      ("default", [], ["echo", "hi"], []) 0 "" ("/out", "/host/out")).2
      (.content "not json" false) true).1

/-! ## C3 — discovery error propagation -/

theorem processImage_error_clientErr (cache : Cache) (tag : String)
    (env : ImageEnv) (e : String) (h : processImage cache tag env = .error e) :
    env.clientErr = some e := by
  unfold processImage at h
  rcases hgs : cache.getImageSpec tag with _ | img
  · rw [hgs] at h
    rcases hcl : env.clientErr with _ | e'
    · rw [hcl] at h
      rcases hrs : (readToolSpec env.specEnv tag).1 with e'' | spec <;>
        rw [hrs] at h <;> cases h
    · rw [hcl] at h
      cases h
      rfl
  · rw [hgs] at h
    cases h

/-- C3 (amended): inside a discovery goroutine the only error that is
propagated to fail the whole `ReadAllTools` call is the failure to build
the goroutine's own docker client; every `readToolSpec` failure —
including probe failures for unreachable images, not only the absence of
a specification — is silently skipped (logged only when verbose), and a
pass over images whose goroutines can all build their clients always
returns successfully. -/
theorem C3_probe_errors_swallowed (cache : Cache) (tag : String)
    (env : ImageEnv) :
    (∀ e, processImage cache tag env = .error e → env.clientErr = some e) ∧
    (cache.getImageSpec tag = none → env.clientErr = none →
      ∀ e, (readToolSpec env.specEnv tag).1 = .error e →
        processImage cache tag env = .ok (cache, [])) ∧
    (∀ images c, (∀ p ∈ images, (Prod.snd (p : String × ImageEnv)).clientErr
        = none) →
      ∃ out, ReadAllTools images c = .ok out) := by
  refine ⟨processImage_error_clientErr cache tag env, ?_, ?_⟩
  · intro hgs hcl e hrs
    unfold processImage
    rw [hgs, hcl, hrs]
  · intro images
    induction images with
    | nil => exact fun c _ => ⟨_, rfl⟩
    | cons hd tl ih =>
      intro c hall
      obtain ⟨tag', env'⟩ := hd
      have hcl : env'.clientErr = none := hall (tag', env') (by simp)
      rcases hpi : processImage c tag' env' with e | ⟨c1, tools⟩
      · have hsome := processImage_error_clientErr c tag' env' e hpi
        rw [hcl] at hsome
        cases hsome
      · obtain ⟨out, hout⟩ := ih c1 (fun p hp => hall p (by simp [hp]))
        exact ⟨(out.1, tools ++ out.2), by simp [ReadAllTools, hpi, hout]⟩

/-- Witness for C3 (amended) at the concrete unreachable-image probe:
the goroutine result is success-with-skip, and the one-image pass
succeeds. -/
theorem C3_probe_errors_swallowed_witness :
    processImage cache0 "img:1" imageEnvProbeFail = .ok (cache0, []) ∧
    ∃ out, ReadAllTools [("img:1", imageEnvProbeFail)] cache0 = .ok out := by
  have h := C3_probe_errors_swallowed cache0 "img:1" imageEnvProbeFail
  have hgs : cache0.getImageSpec "img:1" = none := rfl
  have hcl : imageEnvProbeFail.clientErr = none := rfl
  have hrs : (readToolSpec imageEnvProbeFail.specEnv "img:1").1
      = .error "docker daemon unreachable" := rfl
  exact ⟨h.2.1 hgs hcl "docker daemon unreachable" hrs,
    h.2.2 [("img:1", imageEnvProbeFail)] cache0 (by simp [hcl])⟩

/-! ## C6 — the specification-read procedure matches its description -/

/-- Forget an `Except`'s error text. -/
def exceptToOption {ε α : Type} : Except ε α → Option α
  | .ok a => some a
  | .error _ => none

/-- What C6 accepts from one shim sub-invocation: the command exits zero
with non-empty output that parses as a specification. -/
def claimAccepted (gotapPath : String)
    (parse : String → Except String SpecFile)
    (t : ContainerEnv × List String) : Option SpecFile :=
  match (runContainerCommand t.1 [gotapPath] t.2).1 with
  | .error _ => none
  | .ok (stdout, _, exitCode) =>
    if exitCode = 0 ∧ goTrim stdout ≠ "" then exceptToOption (parse stdout)
    else none

/-- First accepted outcome of a sequence of attempts. -/
def firstSomeSpec : List (Option SpecFile) → Option SpecFile
  | [] => none
  | some s :: _ => some s
  | none :: rest => firstSomeSpec rest

/-- The fallback as C6 states it: a `cat` of the fixed path
`/src/tool.yml`, where a failed container, a non-zero exit or
unparseable content is the definitive no-specification outcome. -/
def catFallbackClaim (env : ReadSpecEnv) : Option SpecFile :=
  match (runContainerCommand env.catCmd ["cat"] ["/src/tool.yml"]).1 with
  | .error _ => none
  | .ok (stdout, _, exitCode) =>
    if exitCode = 0 then exceptToOption (env.parse stdout) else none

/-- C6's procedure as the claim sentences state it: detect the shim with
`command -v gotap || which gotap` in a throwaway container (a failed
detection container is an overall probe failure — no specification
results, matching §4.2's hard probe errors); with the shim found, try
`metadata`, `parse --spec-file` and `parse <path>` in order, accepting
the first that exits zero with non-empty parseable output; with no shim
or no accepted invocation, fall back to the `cat` of `/src/tool.yml`. -/
def readToolSpecOfClaim (env : ReadSpecEnv) : Option SpecFile :=
  match (runContainerCommand env.probe ["sh", "-lc"]
      ["command -v gotap || which gotap"]).1 with
  | .error _ => none
  | .ok (pstdout, _, pcode) =>
    let viaShim :=
      if pcode = 0 ∧ goTrim pstdout ≠ "" then
        firstSomeSpec ((shimCommands env).map
          (claimAccepted (goTrim pstdout) env.parse))
      else none
    match viaShim with
    | some spec => some spec
    | none => catFallbackClaim env

theorem tryShimCommands_eq_firstSome (gotapPath : String)
    (parse : String → Except String SpecFile)
    (cmds : List (ContainerEnv × List String)) :
    (tryShimCommands gotapPath parse cmds).1
      = firstSomeSpec (cmds.map (claimAccepted gotapPath parse)) := by
  induction cmds with
  | nil => rfl
  | cons hd tl ih =>
    obtain ⟨cenv, args⟩ := hd
    rcases ht : tryShimCommands gotapPath parse tl with ⟨r, tr2⟩
    rw [ht] at ih
    unfold tryShimCommands
    rcases hrc : runContainerCommand cenv [gotapPath] args with ⟨res, tr⟩
    simp only [List.map_cons]
    rcases res with e | ⟨so, sr, code⟩
    · have hca : claimAccepted gotapPath parse (cenv, args) = none := by
        simp [claimAccepted, hrc]
      rw [hca]
      simp only [ht, firstSomeSpec]
      exact ih
    · have hca : claimAccepted gotapPath parse (cenv, args)
          = if code = 0 ∧ goTrim so ≠ "" then exceptToOption (parse so)
            else none := by
        simp [claimAccepted, hrc]
      by_cases hcond : code ≠ 0 ∨ goTrim so = ""
      · have hnot : ¬(code = 0 ∧ goTrim so ≠ "") := fun hc =>
          hcond.elim (fun h => h hc.1) (fun h => hc.2 h)
        rw [hca, if_neg hnot]
        simp only [if_pos hcond, ht, firstSomeSpec]
        exact ih
      · have hyes : code = 0 ∧ goTrim so ≠ "" := by
          push_neg at hcond
          exact ⟨hcond.1, hcond.2⟩
        rw [hca, if_pos hyes]
        simp only [if_neg hcond]
        rcases hp : parse so with e | spec
        · simp only [hp, exceptToOption, ht, firstSomeSpec]
          exact ih
        · simp [hp, exceptToOption, firstSomeSpec]

theorem catFallback_agrees (env : ReadSpecEnv) (imageName : String)
    (hparse : ∀ s, goTrim s = "" → exceptToOption (env.parse s) = none) :
    exceptToOption (catFallback env imageName).1 = catFallbackClaim env := by
  unfold catFallback catFallbackClaim
  rcases hcat : runContainerCommand env.catCmd ["cat"]
      ["/src/tool.yml"] with ⟨cres, ctr⟩
  rcases cres with e | ⟨cso, csr, ccode⟩
  · simp [exceptToOption]
  · by_cases hcc : ccode = 0
    · simp only [hcc, ne_eq, not_true_eq_false, if_false, if_true, reduceIte,
        ite_true, ite_false]
      by_cases hempty : goTrim cso = ""
      · simp only [hempty, reduceIte, ite_true]
        rw [hparse cso hempty]
        simp [exceptToOption]
      · simp only [hempty, reduceIte, ite_false]
        rcases hp : env.parse cso with e | spec <;> simp [hp, exceptToOption]
    · have hcc' : ccode ≠ 0 := hcc
      simp [hcc, hcc', exceptToOption]

theorem runContainerCommand_trace_head (env : ContainerEnv)
    (ep cm : List String) (h : env.createErr = none) :
    ∃ rest, (runContainerCommand env ep cm).2 = Ev.create ep cm :: rest := by
  unfold runContainerCommand
  rw [h]
  rcases env.startErr with _ | e₂
  · rcases hw : waitStep env.wait with e₃ | c
    · exact ⟨_, rfl⟩
    · rcases env.logsErr with _ | e₄
      · rcases env.stdCopyErr with _ | e₅ <;> exact ⟨_, rfl⟩
      · exact ⟨_, rfl⟩
  · exact ⟨_, rfl⟩

/-- C6: the embedded `readToolSpec` produces a specification exactly as
the claim's procedure describes — same detection, same acceptance order
over the shim sub-invocations, same fallback — and the detection really
runs `command -v gotap || which gotap` under `sh -lc` as the first
container of the probe.  The hypothesis pins the external parser to
reject whitespace-only input, which the YAML spec parser does. -/
theorem C6_readToolSpec_matches_claim (env : ReadSpecEnv) (imageName : String)
    (hparse : ∀ s, goTrim s = "" → exceptToOption (env.parse s) = none) :
    exceptToOption (readToolSpec env imageName).1 = readToolSpecOfClaim env ∧
    (env.probe.createErr = none →
      ∃ rest, (readToolSpec env imageName).2
        = Ev.create ["sh", "-lc"] ["command -v gotap || which gotap"]
            :: rest) := by
  have hfb := catFallback_agrees env imageName hparse
  rcases hcf : catFallback env imageName with ⟨cres, ctr⟩
  rw [hcf] at hfb
  rcases hrc : runContainerCommand env.probe ["sh", "-lc"]
      ["command -v gotap || which gotap"] with ⟨rres, rtr⟩
  constructor
  · unfold readToolSpecOfClaim
    rw [hrc]
    rcases rres with e | ⟨pso, psr, pcode⟩
    · have hpg : ProbeGotap env.probe = (.error e, rtr) := by
        unfold ProbeGotap
        rw [hrc]
      simp [readToolSpec, hpg, exceptToOption]
    · by_cases h0 : pcode = 0
      · by_cases h1 : goTrim pso = ""
        · have hpg : ProbeGotap env.probe = (.ok none, rtr) := by
            unfold ProbeGotap
            rw [hrc]
            simp [h0, h1]
          have hq : ¬(pcode = 0 ∧ goTrim pso ≠ "") := fun hc => hc.2 h1
          simp only [readToolSpec, hpg, hcf, if_neg hq]
          exact hfb
        · have hpg : ProbeGotap env.probe = (.ok (some (goTrim pso)), rtr) := by
            unfold ProbeGotap
            rw [hrc]
            simp [h0, h1]
          have hq : pcode = 0 ∧ goTrim pso ≠ "" := ⟨h0, h1⟩
          have heq := tryShimCommands_eq_firstSome (goTrim pso) env.parse
            (shimCommands env)
          rcases ht : tryShimCommands (goTrim pso) env.parse
              (shimCommands env) with ⟨r, tr1⟩
          rw [ht] at heq
          simp only [readToolSpec, hpg, ht, if_pos hq, ← heq]
          rcases r with _ | spec
          · simp only [hcf]
            exact hfb
          · simp [exceptToOption]
      · have h0' : pcode ≠ 0 := h0
        have hpg : ProbeGotap env.probe = (.ok none, rtr) := by
          unfold ProbeGotap
          rw [hrc]
          simp [h0']
        have hq : ¬(pcode = 0 ∧ goTrim pso ≠ "") := fun hc => h0 hc.1
        simp only [readToolSpec, hpg, hcf, if_neg hq]
        exact hfb
  · intro hpc
    obtain ⟨rest0, hrest0⟩ := runContainerCommand_trace_head env.probe
      ["sh", "-lc"] ["command -v gotap || which gotap"] hpc
    rw [hrc] at hrest0
    have hrtr : rtr
        = Ev.create ["sh", "-lc"] ["command -v gotap || which gotap"]
            :: rest0 := hrest0
    rcases rres with e | ⟨pso, psr, pcode⟩
    · have hpg : ProbeGotap env.probe = (.error e, rtr) := by
        unfold ProbeGotap
        rw [hrc]
      refine ⟨rest0, ?_⟩
      simp [readToolSpec, hpg, hrtr]
    · by_cases h0 : pcode = 0
      · by_cases h1 : goTrim pso = ""
        · have hpg : ProbeGotap env.probe = (.ok none, rtr) := by
            unfold ProbeGotap
            rw [hrc]
            simp [h0, h1]
          refine ⟨rest0 ++ [] ++ ctr, ?_⟩
          simp [readToolSpec, hpg, hcf, hrtr]
        · have hpg : ProbeGotap env.probe = (.ok (some (goTrim pso)), rtr) := by
            unfold ProbeGotap
            rw [hrc]
            simp [h0, h1]
          rcases ht : tryShimCommands (goTrim pso) env.parse
              (shimCommands env) with ⟨r, tr1⟩
          rcases r with _ | spec
          · refine ⟨rest0 ++ tr1 ++ ctr, ?_⟩
            simp [readToolSpec, hpg, ht, hcf, hrtr]
          · refine ⟨rest0 ++ tr1, ?_⟩
            simp [readToolSpec, hpg, ht, hrtr]
      · have h0' : pcode ≠ 0 := h0
        have hpg : ProbeGotap env.probe = (.ok none, rtr) := by
          unfold ProbeGotap
          rw [hrc]
          simp [h0']
        refine ⟨rest0 ++ [] ++ ctr, ?_⟩
        simp [readToolSpec, hpg, hcf, hrtr]

/-- Witness for C6 at a concrete environment: a shim-less image whose
`/src/tool.yml` parses, with a parser that rejects whitespace-only
input. -/
theorem C6_readToolSpec_matches_claim_witness :
    exceptToOption (readToolSpec
      { probe := { okContainer with wait := .statusChan none 1 }
        metadataCmd := okContainer
        parseSpecFileCmd := okContainer
        parsePathCmd := okContainer
        catCmd := { okContainer with stdout := "tools: demo" }
        parse := fun s =>
          if s = "tools: demo" then
            .ok ⟨[("demo", ⟨"", "demo", "Demo", none⟩)]⟩
          else .error "parse error" } "img:w").1
      = readToolSpecOfClaim
        { probe := { okContainer with wait := .statusChan none 1 }
          metadataCmd := okContainer
          parseSpecFileCmd := okContainer
          parsePathCmd := okContainer
          catCmd := { okContainer with stdout := "tools: demo" }
          parse := fun s =>
            if s = "tools: demo" then
              .ok ⟨[("demo", ⟨"", "demo", "Demo", none⟩)]⟩
            else .error "parse error" } ∧
    ∃ rest, (readToolSpec
      { probe := { okContainer with wait := .statusChan none 1 }
        metadataCmd := okContainer
        parseSpecFileCmd := okContainer
        parsePathCmd := okContainer
        catCmd := { okContainer with stdout := "tools: demo" }
        parse := fun s =>
          if s = "tools: demo" then
            .ok ⟨[("demo", ⟨"", "demo", "Demo", none⟩)]⟩
          else .error "parse error" } "img:w").2
      = Ev.create ["sh", "-lc"] ["command -v gotap || which gotap"] :: rest := by
  have h := C6_readToolSpec_matches_claim
    { probe := { okContainer with wait := .statusChan none 1 }
      metadataCmd := okContainer
      parseSpecFileCmd := okContainer
      parsePathCmd := okContainer
      catCmd := { okContainer with stdout := "tools: demo" }
      parse := fun s =>
        if s = "tools: demo" then
          .ok ⟨[("demo", ⟨"", "demo", "Demo", none⟩)]⟩
        else .error "parse error" } "img:w"
    (fun s hs => by
      have hne : s ≠ "tools: demo" := by
        intro hcontra
        rw [hcontra] at hs
        simp [goTrim, goTrimL] at hs
      simp [hne, exceptToOption])
  exact ⟨h.1, h.2 rfl⟩

end GoRun
